import Mathlib

/- Verification of odoc's rendering-orchestration and live-serving layer
   (src/app/pdoc/cli.py) against its specification.

   Python strings are modelled as lists of characters (`Str`), the filesystem
   as explicit lists of file and directory paths, and the external
   documentation engine (the `pdoc` package, which is outside the verified
   sources) as function parameters or, where the spec fixes its behaviour, as
   definitions marked "Modelled from the spec". -/

namespace Odoc

/-- Python strings are sequences of code points: model them as `List Char`. -/
abbrev Str := List Char

/-- Shorthand turning a Lean string literal into its character list. -/
def str (s : String) : Str := s.data

/-- Python's `s.split(sep)` for a one-character separator `sep`. -/
def splitOnChar (sep : Char) : Str → List Str
  | [] => [[]]
  | c :: rest =>
    let r := splitOnChar sep rest
    if c = sep then [] :: r
    else
      match r with
      | [] => [[c]]
      | g :: gs => (c :: g) :: gs

/-- Python's `s.endswith(sfx)`. -/
def endswith (s sfx : Str) : Bool := sfx == s.drop (s.length - sfx.length)

/-- Python's `s.lstrip("/")`. -/
def lstripSlash (s : Str) : Str := s.dropWhile (· = '/')

/-- `os.path.join(a, b)` for a relative right operand and a left operand
    without a trailing slash (the only shapes the CLI produces). -/
def pjoin (a b : Str) : Str := a ++ str "/" ++ b

/-- `os.path.join(*parts)` for a non-empty list of relative components. -/
def pjoinAll (parts : List Str) : Str := (parts.intersperse (str "/")).flatten

/-- `os.path.dirname(p)`: everything before the last slash (empty when there
    is no slash). -/
def dirname (p : Str) : Str := ((p.reverse.dropWhile (· ≠ '/')).drop 1).reverse

/-- A documentation-module handle as §3 of the spec describes the engine's
    `pdoc.Module`: dotted-path components, package flag, and submodules in
    discovery order. -/
inductive Module where
  | mk (parts : List Str) (pkg : Bool) (subs : List Module)

/-- The module's dotted-path components. -/
def Module.parts : Module → List Str
  | .mk p _ _ => p

/-- The module's `is_package` flag. -/
def Module.is_package : Module → Bool
  | .mk _ k _ => k

/-- The module's `submodules()` sequence. -/
def Module.submodules : Module → List Module
  | .mk _ _ s => s

/-- Modelled from the spec: `pdoc._URL_PACKAGE_SUFFIX` lives in the `pdoc`
    package, which is not under the verified sources; §4.1, §4.4 and §6 fix
    the package-index output name `index.html` inside the package's own
    directory. -/
def URL_PACKAGE_SUFFIX : Str := str "/index.html"

/-- Modelled from the spec: `pdoc._URL_INDEX_MODULE_SUFFIX`, the bare index
    file name recognized when stripping request-path suffixes (§4.4). -/
def URL_INDEX_MODULE_SUFFIX : Str := str "index.html"

/-- Modelled from the spec: `pdoc._URL_MODULE_SUFFIX`, the leaf-module output
    extension (§4.1, §6). -/
def URL_MODULE_SUFFIX : Str := str ".html"

/-- Modelled from the spec: `pdoc.Module.url()` belongs to the external
    engine; §4.1 and §6 give the produced layout — package `a.b` maps to
    `a/b/index.html`, leaf `a.b.c` to `a/b/c.html`. -/
def Module.url : Module → Str
  | .mk parts pkg _ =>
    if pkg then pjoinAll parts ++ URL_PACKAGE_SUFFIX
    else pjoinAll parts ++ URL_MODULE_SUFFIX

/-- `re.sub(r'\.html$', ext, u)`: replace a trailing `.html` by `ext`. -/
def subHtmlExt (u ext : Str) : Str :=
  if endswith u (str ".html") then u.take (u.length - 5) ++ ext else u

/-- `module_path` from cli.py: the output path of module `m` with extension
    `ext` under the output directory. -/
def module_path (output_dir : Str) (m : Module) (ext : Str) : Str :=
  pjoinAll (output_dir :: splitOnChar '/' (subHtmlExt m.url ext))

/-- The filesystem as the CLI observes it: which paths are existing files and
    which are existing directories. -/
structure FS where
  files : List Str
  dirs : List Str
deriving DecidableEq

/-- `os.path.lexists(p)`. -/
def lexists (fs : FS) (p : Str) : Bool := decide (p ∈ fs.files ∨ p ∈ fs.dirs)

/-- `_quit_if_exists` from cli.py: unless `force`, check the module's mapped
    output file and, for a package, also its directory; return the first path
    that exists (the CLI prints exactly that path and exits with code 1), or
    `none` when no check fires. -/
def quit_if_exists (output_dir : Str) (force : Bool) (m : Module) (ext : Str) (fs : FS) :
    Option Str :=
  if force then none
  else
    let paths := [module_path output_dir m ext] ++
      (if m.is_package then [dirname (module_path output_dir m ext)] else [])
    paths.find? (fun p => lexists fs p)

/-- Effect of `open(f, 'w+')`: the file exists afterwards. -/
def addFile (p : Str) (fs : FS) : FS :=
  if p ∈ fs.files then fs else { files := p :: fs.files, dirs := fs.dirs }

/-- Effect of `os.unlink(p)`. -/
def removeFile (p : Str) (fs : FS) : FS :=
  { files := fs.files.filter (fun q => q ≠ p), dirs := fs.dirs }

/-- The `os.access` / `os.makedirs` step of `write_files`: create the target
    directory when it is not accessible yet. -/
def ensureDir (d : Str) (fs : FS) : FS :=
  if d ∈ fs.dirs then fs else { files := fs.files, dirs := d :: fs.dirs }

mutual

/-- `write_files` from cli.py. `render m` stands for the engine's
    `m.html(**kwargs)` / `m.text(**kwargs)`: `none` models the render or the
    write raising after `open` created the file. Returns the filesystem, the
    chronological list of paths written successfully, and whether the walk
    completed (`false` = the exception propagated to the caller). -/
def write_files (output_dir : Str) (render : Module → Option Str) (ext : Str) :
    Module → FS → FS × List Str × Bool
  | .mk parts pkg subs, fs =>
    let f := module_path output_dir (.mk parts pkg subs) ext
    let fs1 := ensureDir (dirname f) fs
    let fs2 := addFile f fs1
    match render (.mk parts pkg subs) with
    | none => (removeFile f fs2, [], false)
    | some _ =>
      let r := writeSubs output_dir render ext subs fs2
      (r.1, f :: r.2.1, r.2.2)

/-- The `for submodule in m.submodules(): write_files(submodule, ...)` loop of
    `write_files`; an exception from one call aborts the loop. -/
def writeSubs (output_dir : Str) (render : Module → Option Str) (ext : Str) :
    List Module → FS → FS × List Str × Bool
  | [], fs => (fs, [], true)
  | s :: ss, fs =>
    let r := write_files output_dir render ext s fs
    if r.2.2 then
      let r2 := writeSubs output_dir render ext ss r.1
      (r2.1, r.2.1 ++ r2.2.1, r2.2.2)
    else r

end

mutual

/-- Depth-first pre-order of a module tree: the module itself, then the
    pre-orders of its submodules in discovery order. -/
def preorder : Module → List Module
  | .mk parts pkg subs => Module.mk parts pkg subs :: preorderList subs

/-- Pre-order of a forest, tree by tree. -/
def preorderList : List Module → List Module
  | [] => []
  | m :: ms => preorder m ++ preorderList ms

end

/-- Reference semantics of the static writer as a flat left-to-right sweep:
    process the listed modules in order with the same per-file effects as
    `write_files`, stopping at the first failed render. -/
def writeSteps (output_dir : Str) (render : Module → Option Str) (ext : Str) :
    List Module → FS → FS × List Str × Bool
  | [], fs => (fs, [], true)
  | m :: ms, fs =>
    let f := module_path output_dir m ext
    let fs2 := addFile f (ensureDir (dirname f) fs)
    match render m with
    | none => (removeFile f fs2, [], false)
    | some _ =>
      let r := writeSteps output_dir render ext ms fs2
      (r.1, f :: r.2.1, r.2.2)

/-- Outcome of the static-generation loop of `main`. -/
inductive RunResult where
  | exited (code : Nat) (reported : List Str) (fs : FS)
  | crashed (fs : FS)
  | finished (fs : FS)
deriving DecidableEq

/-- The static-generation loop of `main` (cli.py lines 316-322): for each
    requested module in order, `_quit_if_exists`, then `write_files`. `ext` is
    `.html` in the HTML branch and `.md` in the text branch. An offending path
    makes the process print that path and exit with code 1; an exception from
    `write_files` aborts the process (`crashed`). -/
def run_static (output_dir : Str) (force : Bool) (render : Module → Option Str) (ext : Str) :
    List Module → FS → RunResult
  | [], fs => .finished fs
  | m :: rest, fs =>
    match quit_if_exists output_dir force m ext fs with
    | some p => .exited 1 [p] fs
    | none =>
      let r := write_files output_dir render ext m fs
      if r.2.2 then run_static output_dir force render ext rest r.1
      else .crashed r.1

mutual

/-- `_flatten_submodules` from cli.py: yield each listed module, then, for
    each of its submodules, everything the recursive call on that singleton
    yields. -/
def flatten_submodules : List Module → List Module
  | [] => []
  | .mk parts pkg subs :: rest =>
      Module.mk parts pkg subs :: (flattenInner subs ++ flatten_submodules rest)
  termination_by ms => (sizeOf ms, 0)
  decreasing_by
  · apply Prod.Lex.left
    simp only [List.cons.sizeOf_spec, Module.mk.sizeOf_spec]
    omega
  · apply Prod.Lex.left
    simp only [List.cons.sizeOf_spec, Module.mk.sizeOf_spec]
    omega

/-- The inner `for submodule in module.submodules()` loop of
    `_flatten_submodules`, recursing on one-element tuples as the source
    does. -/
def flattenInner : List Module → List Module
  | [] => []
  | m :: ms => flatten_submodules [m] ++ flattenInner ms
  termination_by ms => (sizeOf ms, 1)
  decreasing_by
  · have h1 : (1 : Nat) ≤ sizeOf ms := by
      cases ms
      · simp only [List.nil.sizeOf_spec]; omega
      · simp only [List.cons.sizeOf_spec]; omega
    have h2 : sizeOf ([m] : List Module) ≤ sizeOf (m :: ms) := by
      simp only [List.cons.sizeOf_spec, List.nil.sizeOf_spec]; omega
    rcases Nat.lt_or_ge (sizeOf ([m] : List Module)) (sizeOf (m :: ms)) with h | h
    · exact Prod.Lex.left _ _ h
    · have he : sizeOf ([m] : List Module) = sizeOf (m :: ms) := Nat.le_antisymm h2 h
      rw [he]
      exact Prod.Lex.right _ (by omega)
  · apply Prod.Lex.left
    simp only [List.cons.sizeOf_spec]
    omega

end

/-- `print_pdf` from cli.py: flatten the requested modules into one list and
    render that whole list through a single `pdf.mako` template pass
    (`render_template` stands for the engine's `_render_template`). -/
def print_pdf (render_template : List Module → Str) (modules : List Module) : Str :=
  render_template (flatten_submodules modules)

/-- The package-index candidate the inner `exists` helper of
    `WebDoc.resolve_ext` builds for prefix path `p`:
    `os.path.join(output_dir, p, _URL_PACKAGE_SUFFIX.lstrip('/'))`. -/
def pkg_candidate (output_dir : Str) (p : Str) : Str :=
  pjoin (pjoin output_dir p) (lstripSlash URL_PACKAGE_SUFFIX)

/-- The plain-module candidate of the same helper:
    `os.path.join(output_dir, p) + _URL_MODULE_SUFFIX`. -/
def mod_candidate (output_dir : Str) (p : Str) : Str :=
  pjoin output_dir p ++ URL_MODULE_SUFFIX

/-- The inner `exists` helper of `WebDoc.resolve_ext`: under the output root,
    test the package-index candidate first, then the plain module candidate,
    for the prefix path `p`; on a hit return the candidate with the
    output-root prefix sliced off. `fs` is the set of paths for which
    `os.path.isfile` holds. -/
def exists_out (output_dir : Str) (fs : List Str) (p : Str) : Option Str :=
  if pkg_candidate output_dir p ∈ fs then
    some ((pkg_candidate output_dir p).drop output_dir.length)
  else if mod_candidate output_dir p ∈ fs then
    some ((mod_candidate output_dir p).drop output_dir.length)
  else none

/-- The `for i in range(len(parts), 0, -1)` loop of `resolve_ext`; the `Nat`
    argument is the current `i`. -/
def resolveLoop (output_dir : Str) (fs : List Str) (import_path : Str) (parts : List Str) :
    Nat → Option Str
  | 0 => none
  | i + 1 =>
    match exists_out output_dir fs (pjoinAll (parts.take (i + 1))) with
    | some realp => some (str "/" ++ lstripSlash realp ++ str "#" ++ import_path)
    | none => resolveLoop output_dir fs import_path parts i

/-- `WebDoc.resolve_ext` from cli.py: longest dotted prefix whose generated
    output exists on disk, returned web-relative with the full identifier as
    fragment. -/
def resolve_ext (output_dir : Str) (fs : List Str) (import_path : Str) : Option Str :=
  let parts := splitOnChar '.' import_path
  resolveLoop output_dir fs import_path parts parts.length

/-- Modelled from the spec: what `WebDoc.check_modified` reads from the module
    `pdoc.import_module` returns — the engine and `os.stat` are outside the
    verified sources (§4.4, §6). The source artifact's modification time is
    modelled as a natural number. -/
structure ResolvedModule where
  mtime : Nat

/-- The decimal rendering `str(mtime)` used as the etag. -/
def natToStr (n : Nat) : Str := Nat.toDigits 10 n

/-- The suffix-stripping loop of `import_path_from_req_url`: strip the first
    matching suffix from the list, then stop. -/
def stripFirstSuffix (pth : Str) : List Str → Str
  | [] => pth
  | sfx :: rest =>
    if endswith pth sfx then pth.take (pth.length - sfx.length)
    else stripFirstSuffix pth rest

/-- `WebDoc.import_path_from_req_url`: drop the fragment and leading slashes,
    strip the first recognized suffix, and turn slashes into dots. -/
def import_path_from_req_url (p : Str) : Str :=
  let pth := lstripSlash ((splitOnChar '#' p).headD [])
  let pth := stripFirstSuffix pth
    [str "/", URL_PACKAGE_SUFFIX, URL_INDEX_MODULE_SUFFIX, URL_MODULE_SUFFIX]
  pth.map (fun c => if c = '/' then '.' else c)

/-- `WebDoc.check_modified`: `import_module` models `pdoc.import_module`
    (`none` = `ImportError`), `if_none_match` the client's `If-None-Match`
    header if present. Returns the status code and whether access logging was
    suppressed for the request. -/
def check_modified (import_module : Str → Option ResolvedModule) (path : Str)
    (if_none_match : Option Str) : Nat × Bool :=
  match import_module (import_path_from_req_url path) with
  | none => (404, false)
  | some m =>
    let new_etag := natToStr m.mtime
    let old_etag := if_none_match.getD new_etag
    if old_etag = new_etag then (304, true) else (205, false)

/-- An HTTP response as the handler assembles it: status line, headers sent,
    body (`none` when no body is written). -/
structure HttpResponse where
  status : Nat
  headers : List (Str × Str)
  body : Option Str
deriving DecidableEq

/-- The `Content-type` header the rendering branches send. -/
def content_type : Str × Str := (str "Content-type", str "text/html; charset=utf-8")

/-- `WebDoc.do_HEAD`: status 200 for `/`, otherwise the staleness check;
    always a `Content-type` header and no body. The boolean is the
    log-suppression flag from `check_modified`. -/
def do_HEAD (import_module : Str → Option ResolvedModule) (path : Str)
    (if_none_match : Option Str) : HttpResponse × Bool :=
  let r := if path = str "/" then (200, false) else check_modified import_module path if_none_match
  (⟨r.1, [content_type], none⟩, r.2)

/-- `WebDoc.redirect`: a 302 with only a `Location` header and no body. -/
def redirect (location : Str) : HttpResponse :=
  { status := 302, headers := [(str "Location", location)], body := none }

/-- The request-independent state `WebDoc.do_GET` reads: the configured output
    directory, the files on disk, the rendered index page for `/`, and the
    engine entry points `pdoc.html(top_level)` (on-the-fly generation) and
    `self.html()` (full render of the implied module); `none` models a raised
    exception / `ImportError`. -/
structure ServerEnv where
  output_dir : Str
  fs : List Str
  index_page : Str
  pdoc_html : Str → Option Str
  html_render : Str → Option Str

/-- `WebDoc.do_GET`, branch for branch; `none` is the favicon no-op. -/
def do_GET (env : ServerEnv) (path : Str) : Option HttpResponse :=
  if path = str "/favicon.ico" then none
  else if path = str "/" then some ⟨200, [content_type], some env.index_page⟩
  else if endswith path (str ".ext") then
    match resolve_ext env.output_dir env.fs (lstripSlash (path.take (path.length - 4))) with
    | some resolved => some (redirect resolved)
    | none =>
      match env.pdoc_html
          ((splitOnChar '.' (lstripSlash (path.take (path.length - 4)))).headD []) with
      | some out => some ⟨200, [content_type], some out⟩
      | none =>
        some ⟨404, [content_type],
          some (str "External identifier <code>" ++ lstripSlash (path.take (path.length - 4)) ++
            str "</code> not found.")⟩
  else if !(endswith path (str "/") || endswith path (str ".html")) then
    some (redirect (path ++ str "/"))
  else if endswith path URL_PACKAGE_SUFFIX then
    some (redirect (path.take (path.length - URL_PACKAGE_SUFFIX.length) ++ str "/"))
  else
    match env.html_render (import_path_from_req_url path) with
    | some out => some ⟨200, [content_type], some out⟩
    | none =>
      some ⟨404, [content_type],
        some (str "Module <code>" ++ import_path_from_req_url path ++ str "</code> not found.")⟩

/-- Python's `html.escape` with its default quoting — the escaping §4.4 and §7
    of the spec claim for 404 bodies; the verified source never calls it. -/
def html_escape (s : Str) : Str :=
  s.flatMap fun c =>
    if c = '&' then str "&amp;"
    else if c = '<' then str "&lt;"
    else if c = '>' then str "&gt;"
    else if c = '"' then str "&quot;"
    else if c = Char.ofNat 39 then str "&#x27;"
    else [c]

/-- Example tree from §8 of the spec: `root{childA{grandchild}, childB}`. -/
def exGrandchild : Module := .mk [str "root", str "childA", str "grandchild"] false []

/-- Example tree, inner package `childA` owning `grandchild`. -/
def exChildA : Module := .mk [str "root", str "childA"] true [exGrandchild]

/-- Example tree, second child of the root. -/
def exChildB : Module := .mk [str "root", str "childB"] false []

/-- Example tree root. -/
def exRoot : Module := .mk [str "root"] true [exChildA, exChildB]

/-- Example renderer that fails exactly on `exGrandchild`. -/
def exRender : Module → Option Str :=
  fun m => if m.parts = [str "root", str "childA", str "grandchild"] then none else some []

/-- Characterization of `endswith`: a Boolean suffix test. -/
theorem endswith_iff (s sfx : Str) : endswith s sfx = true ↔ ∃ pre, s = pre ++ sfx := by
  unfold endswith
  constructor
  · intro h
    refine ⟨s.take (s.length - sfx.length), ?_⟩
    conv_lhs => rw [← List.take_append_drop (s.length - sfx.length) s]
    rw [← eq_of_beq h]
  · rintro ⟨pre, rfl⟩
    have hl : (pre ++ sfx).length - sfx.length = pre.length := by simp
    rw [hl, List.drop_left]
    exact beq_self_eq_true sfx

/-- A string ending in `a ++ b` also ends in `b`. -/
theorem endswith_sub (s a b : Str) (h : endswith s (a ++ b) = true) : endswith s b = true := by
  rw [endswith_iff] at h ⊢
  obtain ⟨pre, rfl⟩ := h
  exact ⟨pre ++ a, by simp⟩

/-- `preorderList` is the concatenation of the trees' preorders. -/
theorem preorderList_eq (ms : List Module) : preorderList ms = ms.flatMap preorder := by
  induction ms with
  | nil => rfl
  | cons m rest ih => simp [preorderList, ih]

/-- The inner loop of `_flatten_submodules` produces the forest's pre-order. -/
theorem flattenInner_eq : ∀ ms : List Module, flattenInner ms = ms.flatMap preorder
  | [] => by simp [flattenInner]
  | .mk p k subs :: ss => by
      simp only [flattenInner, flatten_submodules]
      rw [flattenInner_eq subs, flattenInner_eq ss]
      simp [preorder, preorderList_eq]
termination_by ms => sizeOf ms
decreasing_by
  all_goals (simp only [List.cons.sizeOf_spec, Module.mk.sizeOf_spec]; omega)

/-- `_flatten_submodules` produces the forest's pre-order. -/
theorem flatten_eq (ms : List Module) : flatten_submodules ms = ms.flatMap preorder := by
  induction ms with
  | nil => simp [flatten_submodules]
  | cons m rest ih =>
    cases m with
    | mk p k subs =>
      simp only [flatten_submodules, flattenInner_eq, ih]
      simp [preorder, preorderList_eq]

/-- Claim C5: the PDF assembler's flattening is exactly depth-first pre-order
    (each module before its submodules, submodules in discovery order), the
    whole flattened sequence is rendered in one shared template pass, and for
    the tree root{childA{grandchild}, childB} the sequence is
    [root, childA, grandchild, childB]. -/
theorem claim_C5_pdf_flatten_preorder :
    (∀ ms : List Module, flatten_submodules ms = ms.flatMap preorder) ∧
    (∀ (render_template : List Module → Str) (ms : List Module),
        print_pdf render_template ms = render_template (ms.flatMap preorder)) ∧
    flatten_submodules [exRoot] = [exRoot, exChildA, exGrandchild, exChildB] := by
  refine ⟨flatten_eq, ?_, ?_⟩
  · intro render_template ms
    rw [print_pdf, flatten_eq]
  · rw [flatten_eq]
    rfl

/-- Claim C3: for a HEAD request on a path other than `/`, an unresolvable
    module gives 404; with `new_etag` derived from the source's modification
    time, a client `If-None-Match` equal to `new_etag` gives 304 with access
    logging suppressed, and a differing client tag gives 205. A HEAD request
    on `/` always gives 200. -/
theorem claim_C3_head_conditional (import_module : Str → Option ResolvedModule)
    (path : Str) (inm : Option Str) :
    (path ≠ str "/" →
      (import_module (import_path_from_req_url path) = none →
        (do_HEAD import_module path inm).1.status = 404) ∧
      (∀ m, import_module (import_path_from_req_url path) = some m →
        (inm = some (natToStr m.mtime) →
          (do_HEAD import_module path inm).1.status = 304 ∧
          (do_HEAD import_module path inm).2 = true) ∧
        (∀ e, inm = some e → e ≠ natToStr m.mtime →
          (do_HEAD import_module path inm).1.status = 205))) ∧
    (path = str "/" → (do_HEAD import_module path inm).1.status = 200) := by
  constructor
  · intro hp
    constructor
    · intro hnone
      simp [do_HEAD, check_modified, hp, hnone]
    · intro m hm
      constructor
      · intro hinm
        simp [do_HEAD, check_modified, hp, hm, hinm]
      · intro e hinm hne
        simp [do_HEAD, check_modified, hp, hm, hinm, hne]
  · intro hp
    simp [do_HEAD, hp]

/-- Concrete instance of claim C3: a matching tag yields 304 with logging
    suppressed. -/
theorem claim_C3_witness :
    (do_HEAD (fun _ => some ⟨5⟩) (str "/m/") (some (natToStr 5))).1.status = 304 ∧
    (do_HEAD (fun _ => some ⟨5⟩) (str "/m/") (some (natToStr 5))).2 = true :=
  (((claim_C3_head_conditional (fun _ => some ⟨5⟩) (str "/m/")
      (some (natToStr 5))).1 (by decide)).2 ⟨5⟩ rfl).1 rfl

/-- Claim C9: a HEAD request on a resolvable module path with no
    `If-None-Match` header at all is treated as fresh — the missing header
    defaults to the newly computed etag — so the status is 304 (and logging is
    suppressed), not 205. -/
theorem claim_C9_missing_header_fresh (import_module : Str → Option ResolvedModule)
    (path : Str) (m : ResolvedModule)
    (hp : path ≠ str "/")
    (hm : import_module (import_path_from_req_url path) = some m) :
    (do_HEAD import_module path none).1.status = 304 ∧
    (do_HEAD import_module path none).2 = true := by
  simp [do_HEAD, check_modified, hp, hm]

/-- Concrete instance of claim C9. -/
theorem claim_C9_witness :
    (do_HEAD (fun _ => some ⟨7⟩) (str "/m/") none).1.status = 304 ∧
    (do_HEAD (fun _ => some ⟨7⟩) (str "/m/") none).2 = true :=
  claim_C9_missing_header_fresh (fun _ => some ⟨7⟩) (str "/m/") ⟨7⟩ (by decide) rfl

/-- Claim C10: for a prefix tested by `resolve_ext`, when both the
    package-index file and the plain leaf file exist on disk, the
    package-index file is the one returned — it is checked first. -/
theorem claim_C10_package_checked_first (output_dir : Str) (fs : List Str) (p : Str)
    (h1 : pkg_candidate output_dir p ∈ fs) (h2 : mod_candidate output_dir p ∈ fs) :
    exists_out output_dir fs p = some ((pkg_candidate output_dir p).drop output_dir.length) := by
  simp [exists_out, h1]

/-- Concrete instance of claim C10: both `docs/pkg/index.html` and
    `docs/pkg.html` exist; the index file wins. -/
theorem claim_C10_witness :
    exists_out (str "docs") [str "docs/pkg/index.html", str "docs/pkg.html"] (str "pkg") =
      some (str "/pkg/index.html") :=
  (claim_C10_package_checked_first (str "docs")
      [str "docs/pkg/index.html", str "docs/pkg.html"] (str "pkg")
      (by decide) (by decide)).trans (by decide)

/-- Claim C6: for a GET whose path is not `/`, not `/favicon.ico` and does not
    end in `.ext`: a path not ending in `/` or `.html` is 302-redirected to
    the path with `/` appended; otherwise a path ending in the package-index
    suffix is 302-redirected to the path with that suffix stripped, ending in
    `/`. -/
theorem claim_C6_get_redirects (env : ServerEnv) (path : Str)
    (h1 : path ≠ str "/") (h2 : path ≠ str "/favicon.ico")
    (h3 : endswith path (str ".ext") = false) :
    (endswith path (str "/") = false → endswith path (str ".html") = false →
      do_GET env path = some (redirect (path ++ str "/"))) ∧
    (endswith path URL_PACKAGE_SUFFIX = true →
      do_GET env path =
        some (redirect (path.take (path.length - URL_PACKAGE_SUFFIX.length) ++ str "/"))) := by
  constructor
  · intro hs hh
    simp [do_GET, h1, h2, h3, hs, hh]
  · intro hp
    have hh : endswith path (str ".html") = true := by
      have hsplit : URL_PACKAGE_SUFFIX = str "/index" ++ str ".html" := by decide
      exact endswith_sub path (str "/index") (str ".html") (hsplit ▸ hp)
    simp [do_GET, h1, h2, h3, hh, hp]

/-- Concrete instances of claim C6: `/pkg` redirects to `/pkg/`, and
    `/pkg/index.html` redirects to `/pkg/`. -/
theorem claim_C6_witness :
    do_GET ⟨str "docs", [], [], fun _ => none, fun _ => none⟩ (str "/pkg") =
      some (redirect (str "/pkg/")) ∧
    do_GET ⟨str "docs", [], [], fun _ => none, fun _ => none⟩ (str "/pkg/index.html") =
      some (redirect (str "/pkg/")) := by
  constructor
  · exact ((claim_C6_get_redirects ⟨str "docs", [], [], fun _ => none, fun _ => none⟩
      (str "/pkg") (by decide) (by decide) (by decide)).1 (by decide) (by decide)).trans
      (by decide)
  · exact ((claim_C6_get_redirects ⟨str "docs", [], [], fun _ => none, fun _ => none⟩
      (str "/pkg/index.html") (by decide) (by decide) (by decide)).2 (by decide)).trans
      (by decide)

/-- Refutation of claim C7: the 302 redirect for `GET /pkg` is a responded
    request whose headers do not include `Content-type: text/html;
    charset=utf-8` — `WebDoc.redirect` sends only `Location`. -/
theorem claim_C7_counterexample :
    do_GET ⟨str "docs", [], [], fun _ => none, fun _ => none⟩ (str "/pkg") =
      some (redirect (str "/pkg/")) ∧
    content_type ∉ (redirect (str "/pkg/")).headers := by
  constructor
  · decide
  · decide

/-- Every `do_GET` outcome is the favicon no-op, a redirect, or a rendered
    page with status 200 or 404 and the `Content-type` header. -/
theorem do_GET_shape (env : ServerEnv) (path : Str) :
    do_GET env path = none ∨
    (∃ loc, do_GET env path = some (redirect loc)) ∨
    (∃ st out, (st = 200 ∨ st = 404) ∧
      do_GET env path = some ⟨st, [content_type], some out⟩) := by
  unfold do_GET
  repeat' split
  all_goals first
    | (left; rfl)
    | (right; left; exact ⟨_, rfl⟩)
    | (right; right; exact ⟨200, _, Or.inl rfl, rfl⟩)
    | (right; right; exact ⟨404, _, Or.inr rfl, rfl⟩)

/-- Claim C7 as amended: every non-redirect response of the Live Server
    carries `Content-type: text/html; charset=utf-8`; a 302 redirect response
    instead carries only a `Location` header. -/
theorem claim_C7_amended (env : ServerEnv) (path : Str)
    (import_module : Str → Option ResolvedModule) (inm : Option Str) :
    (∀ r, do_GET env path = some r → r.status ≠ 302 → content_type ∈ r.headers) ∧
    content_type ∈ (do_HEAD import_module path inm).1.headers ∧
    (∀ r, do_GET env path = some r → r.status = 302 →
      ∃ loc, r.headers = [(str "Location", loc)]) := by
  refine ⟨?_, by simp [do_HEAD], ?_⟩
  · intro r hr hs
    rcases do_GET_shape env path with h | ⟨loc, h⟩ | ⟨st, out, _, h⟩
    · rw [h] at hr; cases hr
    · rw [h] at hr
      cases hr
      simp [redirect] at hs
    · rw [h] at hr
      cases hr
      simp
  · intro r hr hs
    rcases do_GET_shape env path with h | ⟨loc, h⟩ | ⟨st, out, hst, h⟩
    · rw [h] at hr; cases hr
    · rw [h] at hr
      cases hr
      exact ⟨loc, rfl⟩
    · rw [h] at hr
      cases hr
      rcases hst with rfl | rfl <;> simp at hs

/-- Concrete instance of the amended claim C7: the 404 page for an
    unimportable module carries the `Content-type` header. -/
theorem claim_C7_witness :
    content_type ∈
      (HttpResponse.mk 404 [content_type]
        (some (str "Module <code>m</code> not found."))).headers :=
  (claim_C7_amended ⟨str "docs", [], [], fun _ => none, fun _ => none⟩ (str "/m/")
      (fun _ => none) none).1
    ⟨404, [content_type], some (str "Module <code>m</code> not found.")⟩
    (by decide) (by decide)

/-- Refutation of claim C8: for the `.ext` request `/a<b.ext` that misses and
    whose on-demand generation fails, the 404 body interpolates the identifier
    `a<b` verbatim, not HTML-escaped. -/
theorem claim_C8_counterexample :
    do_GET ⟨str "docs", [], [], fun _ => none, fun _ => none⟩ (str "/a<b.ext") =
      some ⟨404, [content_type],
        some (str "External identifier <code>a<b</code> not found.")⟩ ∧
    str "External identifier <code>a<b</code> not found." ≠
      str "External identifier <code>" ++ html_escape (str "a<b") ++
        str "</code> not found." := by
  constructor
  · decide
  · decide

/-- Claim C8 as amended: a GET that fails to resolve a module — an `.ext` path
    whose resolution misses and whose on-demand generation raises, or a
    default-render path whose import fails — yields status 404 with a body
    naming the unresolved identifier verbatim, with no HTML escaping
    applied. -/
theorem claim_C8_amended (env : ServerEnv) (path : Str) :
    (endswith path (str ".ext") = true → path ≠ str "/" → path ≠ str "/favicon.ico" →
      resolve_ext env.output_dir env.fs (lstripSlash (path.take (path.length - 4))) = none →
      env.pdoc_html ((splitOnChar '.' (lstripSlash (path.take (path.length - 4)))).headD []) =
        none →
      do_GET env path = some ⟨404, [content_type],
        some (str "External identifier <code>" ++ lstripSlash (path.take (path.length - 4)) ++
          str "</code> not found.")⟩) ∧
    (path ≠ str "/" → path ≠ str "/favicon.ico" → endswith path (str ".ext") = false →
      (endswith path (str "/") = true ∨ endswith path (str ".html") = true) →
      endswith path URL_PACKAGE_SUFFIX = false →
      env.html_render (import_path_from_req_url path) = none →
      do_GET env path = some ⟨404, [content_type],
        some (str "Module <code>" ++ import_path_from_req_url path ++
          str "</code> not found.")⟩) := by
  constructor
  · intro hext h1 h2 hres hgen
    simp only [List.headD_eq_head?] at hgen
    simp [do_GET, h1, h2, hext, hres, hgen]
  · intro h1 h2 hext hsh hpk hren
    rcases hsh with hs | hh
    · simp [do_GET, h1, h2, hext, hs, hpk, hren]
    · simp [do_GET, h1, h2, hext, hh, hpk, hren]

/-- `ensureDir` leaves the files unchanged. -/
theorem files_ensureDir (d : Str) (fs : FS) : (ensureDir d fs).files = fs.files := by
  unfold ensureDir
  split <;> rfl

/-- Membership in the files after `addFile`. -/
theorem mem_addFile (q p : Str) (fs : FS) :
    q ∈ (addFile p fs).files ↔ q = p ∨ q ∈ fs.files := by
  by_cases hp : p ∈ fs.files
  · rw [addFile, if_pos hp]
    constructor
    · exact Or.inr
    · rintro (rfl | h)
      · exact hp
      · exact h
  · rw [addFile, if_neg hp]
    exact List.mem_cons

/-- Membership in the files after `removeFile`. -/
theorem mem_removeFile (q p : Str) (fs : FS) :
    q ∈ (removeFile p fs).files ↔ q ∈ fs.files ∧ q ≠ p := by
  simp [removeFile, List.mem_filter]

/-- `writeSteps` on an append: run the first list; on success continue with
    the second from where it left off, concatenating the logs; on failure
    stop. -/
theorem writeSteps_append (output_dir : Str) (render : Module → Option Str) (ext : Str)
    (l1 l2 : List Module) (fs : FS) :
    writeSteps output_dir render ext (l1 ++ l2) fs =
      (match writeSteps output_dir render ext l1 fs with
       | (fs1, w1, true) =>
         ((writeSteps output_dir render ext l2 fs1).1,
          w1 ++ (writeSteps output_dir render ext l2 fs1).2.1,
          (writeSteps output_dir render ext l2 fs1).2.2)
       | (fs1, w1, false) => (fs1, w1, false)) := by
  induction l1 generalizing fs with
  | nil => simp [writeSteps]
  | cons m ms ih =>
    simp only [List.cons_append, writeSteps]
    cases hr : render m with
    | none => simp
    | some c =>
      dsimp only
      rw [show (ms.append l2) = ms ++ l2 from rfl, ih]
      rcases hws : writeSteps output_dir render ext ms
        (addFile (module_path output_dir m ext)
          (ensureDir (dirname (module_path output_dir m ext)) fs)) with ⟨fs1, w1, ok⟩
      cases ok <;> simp

/-- The submodule loop of `write_files` equals the flat sweep over the
    forest's pre-order. -/
theorem writeSubs_eq (output_dir : Str) (render : Module → Option Str) (ext : Str) :
    ∀ (ms : List Module) (fs : FS),
      writeSubs output_dir render ext ms fs =
        writeSteps output_dir render ext (preorderList ms) fs
  | [], fs => by simp [writeSubs, preorderList, writeSteps]
  | .mk p k subs :: ss, fs => by
    rw [preorderList, preorder, List.cons_append, writeSteps]
    simp only [writeSubs, write_files]
    cases hrm : render (Module.mk p k subs) with
    | none => simp
    | some c =>
      dsimp only
      rw [writeSubs_eq output_dir render ext subs
          (addFile (module_path output_dir (Module.mk p k subs) ext)
            (ensureDir (dirname (module_path output_dir (Module.mk p k subs) ext)) fs)),
        writeSteps_append]
      rcases hws : writeSteps output_dir render ext (preorderList subs)
        (addFile (module_path output_dir (Module.mk p k subs) ext)
          (ensureDir (dirname (module_path output_dir (Module.mk p k subs) ext)) fs)) with
        ⟨fs1, w1, ok1⟩
      cases ok1 with
      | false => simp
      | true =>
        dsimp only
        rw [writeSubs_eq output_dir render ext ss fs1]
        simp
termination_by ms => sizeOf ms
decreasing_by
  all_goals (simp only [List.cons.sizeOf_spec, Module.mk.sizeOf_spec]; omega)

/-- `write_files` equals the flat sweep over the module's pre-order: the
    module's own file first, then its submodules depth-first. -/
theorem write_files_eq (output_dir : Str) (render : Module → Option Str) (ext : Str)
    (m : Module) (fs : FS) :
    write_files output_dir render ext m fs =
      writeSteps output_dir render ext (preorder m) fs := by
  cases m with
  | mk p k subs =>
    rw [preorder, writeSteps]
    simp only [write_files]
    cases hrm : render (Module.mk p k subs) with
    | none => simp
    | some c => rw [writeSubs_eq]

/-- A sweep over modules that all render successfully completes, writes
    exactly their mapped paths in order, and only adds those paths to the
    filesystem. -/
theorem writeSteps_ok (output_dir : Str) (render : Module → Option Str) (ext : Str) :
    ∀ (l : List Module) (fs : FS), (∀ x ∈ l, (render x).isSome) →
      (writeSteps output_dir render ext l fs).2.2 = true ∧
      (writeSteps output_dir render ext l fs).2.1 =
        l.map (fun x => module_path output_dir x ext) ∧
      ∀ q ∈ (writeSteps output_dir render ext l fs).1.files,
        q ∈ fs.files ∨ q ∈ l.map (fun x => module_path output_dir x ext) := by
  intro l
  induction l with
  | nil =>
    intro fs _
    refine ⟨rfl, rfl, ?_⟩
    intro q hq
    exact Or.inl hq
  | cons m ms ih =>
    intro fs hall
    obtain ⟨c, hc⟩ := Option.isSome_iff_exists.mp (hall m (List.mem_cons_self m ms))
    simp only [writeSteps, hc]
    obtain ⟨h1, h2, h3⟩ := ih
      (addFile (module_path output_dir m ext)
        (ensureDir (dirname (module_path output_dir m ext)) fs))
      (fun x hx => hall x (List.mem_cons_of_mem m hx))
    refine ⟨h1, by rw [h2, List.map_cons], ?_⟩
    intro q hq
    rcases h3 q hq with h | h
    · rw [mem_addFile, files_ensureDir] at h
      rcases h with rfl | h
      · exact Or.inr (by simp)
      · exact Or.inl h
    · exact Or.inr (by simp [List.mem_map] at h ⊢; tauto)

/-- Claim C4: in a static write, when every module strictly before `bad` in
    the pre-order renders successfully and `bad`'s render or write fails, the
    walk reports failure, the chronological write log is exactly the
    completed pre-order prefix (the parent's own file written before its
    submodules), `bad`'s partially written file has been deleted, and no file
    beyond those completed before the failure exists. -/
theorem claim_C4_per_file_rollback (output_dir : Str) (render : Module → Option Str)
    (ext : Str) (m : Module) (fs : FS) (done rest : List Module) (bad : Module)
    (hsplit : preorder m = done ++ bad :: rest)
    (hdone : ∀ x ∈ done, (render x).isSome)
    (hbad : render bad = none) :
    (write_files output_dir render ext m fs).2.2 = false ∧
    (write_files output_dir render ext m fs).2.1 =
      done.map (fun x => module_path output_dir x ext) ∧
    module_path output_dir bad ext ∉ (write_files output_dir render ext m fs).1.files ∧
    ∀ q ∈ (write_files output_dir render ext m fs).1.files,
      q ∈ fs.files ∨ q ∈ done.map (fun x => module_path output_dir x ext) := by
  rw [write_files_eq, hsplit, writeSteps_append]
  obtain ⟨h1, h2, h3⟩ := writeSteps_ok output_dir render ext done fs hdone
  rcases hd : writeSteps output_dir render ext done fs with ⟨fsd, wd, okd⟩
  rw [hd] at h1 h2 h3
  simp only at h1 h2
  subst h1 h2
  simp only [writeSteps, hbad]
  dsimp only at h3
  refine ⟨trivial, by simp, ?_, ?_⟩
  · rw [mem_removeFile]
    rintro ⟨-, h⟩
    exact h rfl
  · intro q hq
    rw [mem_removeFile] at hq
    obtain ⟨hq1, hq2⟩ := hq
    rw [mem_addFile, files_ensureDir] at hq1
    rcases hq1 with rfl | hq1
    · exact absurd rfl hq2
    · exact h3 q hq1

/-- Concrete instance of claim C4: on the example tree with a renderer that
    fails at `exGrandchild`, the walk fails, has written exactly the files of
    `exRoot` and `exChildA` in that order, the grandchild's file does not
    exist afterwards, and no other file exists. -/
theorem claim_C4_witness :
    (write_files (str "docs") exRender (str ".html") exRoot ⟨[], []⟩).2.2 = false ∧
    (write_files (str "docs") exRender (str ".html") exRoot ⟨[], []⟩).2.1 =
      [exRoot, exChildA].map (fun x => module_path (str "docs") x (str ".html")) ∧
    module_path (str "docs") exGrandchild (str ".html") ∉
      (write_files (str "docs") exRender (str ".html") exRoot ⟨[], []⟩).1.files ∧
    ∀ q ∈ (write_files (str "docs") exRender (str ".html") exRoot ⟨[], []⟩).1.files,
      q ∈ (FS.mk [] []).files ∨
      q ∈ [exRoot, exChildA].map (fun x => module_path (str "docs") x (str ".html")) :=
  claim_C4_per_file_rollback (str "docs") exRender (str ".html") exRoot ⟨[], []⟩
    [exRoot, exChildA] [exChildB] exGrandchild rfl (by decide) rfl

/-- Refutation of claim C1 as stated: with two requested modules where only
    the second collides (its index file exists, and its directory exists as
    well), the run does abort with exit code 1, but the first module's file
    `docs/aaa.html` has already been written — the final filesystem contains
    it though the initial one did not — and only the first offending path is
    reported even though the package's directory `docs/bbb` is offending
    too. -/
theorem claim_C1_counterexample :
    run_static (str "docs") false (fun _ => some []) (str ".html")
        [Module.mk [str "aaa"] false [], Module.mk [str "bbb"] true []]
        ⟨[str "docs/bbb/index.html"], [str "docs", str "docs/bbb"]⟩ =
      .exited 1 [str "docs/bbb/index.html"]
        ⟨[str "docs/aaa.html", str "docs/bbb/index.html"], [str "docs", str "docs/bbb"]⟩ ∧
    str "docs/aaa.html" ∉
      (FS.mk [str "docs/bbb/index.html"] [str "docs", str "docs/bbb"]).files ∧
    lexists ⟨[str "docs/bbb/index.html"], [str "docs", str "docs/bbb"]⟩ (str "docs/bbb") =
      true := by
  refine ⟨by decide, by decide, by decide⟩

/-- Claim C1 as amended: requested modules are checked and written one at a
    time, in order; as soon as the per-module check of a module finds its
    mapped output file (or, for a package, its directory) existing, the run
    aborts with exit code 1 before writing any file of that module or of the
    later ones, reporting the first offending path found — the trees of the
    earlier requested modules have already been written at that point. -/
theorem claim_C1_abort_at_colliding_module (output_dir : Str) (force : Bool)
    (render : Module → Option Str) (ext : Str)
    (done : List Module) (bad : Module) (rest : List Module) (fs fsdone : FS) (p : Str)
    (hdone : run_static output_dir force render ext done fs = .finished fsdone)
    (hbad : quit_if_exists output_dir force bad ext fsdone = some p) :
    run_static output_dir force render ext (done ++ bad :: rest) fs =
      .exited 1 [p] fsdone := by
  induction done generalizing fs with
  | nil =>
    cases hdone
    rw [List.nil_append, run_static, hbad]
  | cons m ms ih =>
    rw [run_static] at hdone
    rcases hq : quit_if_exists output_dir force m ext fs with _ | q
    · rw [hq] at hdone
      simp only at hdone
      rcases hwf : write_files output_dir render ext m fs with ⟨fs1, w1, ok1⟩
      rw [hwf] at hdone
      cases ok1 with
      | false => simp at hdone
      | true =>
        simp only [if_true] at hdone
        rw [List.cons_append, run_static, hq]
        simp only [hwf]
        exact ih fs1 hdone
    · rw [hq] at hdone
      simp at hdone

/-- Concrete instance of the amended claim C1: the first module's tree is
    written, then the second module's collision aborts the run with exit code
    1, reporting the first offending path. -/
theorem claim_C1_witness :
    run_static (str "docs") false (fun _ => some []) (str ".html")
        ([Module.mk [str "aaa"] false []] ++ Module.mk [str "bbb"] true [] :: [])
        ⟨[str "docs/bbb/index.html"], [str "docs", str "docs/bbb"]⟩ =
      .exited 1 [str "docs/bbb/index.html"]
        ⟨[str "docs/aaa.html", str "docs/bbb/index.html"],
          [str "docs", str "docs/bbb"]⟩ :=
  claim_C1_abort_at_colliding_module (str "docs") false (fun _ => some []) (str ".html")
    [Module.mk [str "aaa"] false []] (Module.mk [str "bbb"] true []) []
    ⟨[str "docs/bbb/index.html"], [str "docs", str "docs/bbb"]⟩
    ⟨[str "docs/aaa.html", str "docs/bbb/index.html"], [str "docs", str "docs/bbb"]⟩
    (str "docs/bbb/index.html") (by decide) (by decide)

/-- A prefix whose candidates are both missing makes `exists_out` miss. -/
theorem exists_out_none (output_dir : Str) (fs : List Str) (p : Str)
    (h1 : pkg_candidate output_dir p ∉ fs) (h2 : mod_candidate output_dir p ∉ fs) :
    exists_out output_dir fs p = none := by
  simp [exists_out, h1, h2]

/-- A prefix with at least one candidate present makes `exists_out` return
    the package-index candidate if present, the module candidate otherwise,
    with the output-root prefix sliced off. -/
theorem exists_out_hit (output_dir : Str) (fs : List Str) (p : Str)
    (h : pkg_candidate output_dir p ∈ fs ∨ mod_candidate output_dir p ∈ fs) :
    exists_out output_dir fs p =
      some ((if pkg_candidate output_dir p ∈ fs then pkg_candidate output_dir p
             else mod_candidate output_dir p).drop output_dir.length) := by
  by_cases hp : pkg_candidate output_dir p ∈ fs
  · simp [exists_out, hp]
  · rcases h with h | h
    · exact absurd h hp
    · simp [exists_out, hp, h]

/-- Skipping missing prefixes: when every index in `(i, k]` misses, the
    resolve loop started at `k` equals the loop started at `i`. -/
theorem resolveLoop_skip (output_dir : Str) (fs : List Str) (d : Str) (parts : List Str)
    (i : Nat) :
    ∀ k, i ≤ k →
      (∀ j, i < j → j ≤ k → exists_out output_dir fs (pjoinAll (parts.take j)) = none) →
      resolveLoop output_dir fs d parts k = resolveLoop output_dir fs d parts i := by
  intro k
  induction k with
  | zero =>
    intro hik _
    have : i = 0 := Nat.le_zero.mp hik
    rw [this]
  | succ n ihn =>
    intro hik hmiss
    rcases Nat.eq_or_lt_of_le hik with heq | hlt
    · rw [heq]
    · have hi_n : i ≤ n := Nat.lt_succ_iff.mp hlt
      rw [resolveLoop, hmiss (n + 1) hlt (Nat.le_refl _)]
      exact ihn hi_n (fun j hj1 hj2 => hmiss j hj1 (Nat.le_succ_of_le hj2))

/-- When every index in `[1, k]` misses, the resolve loop returns `none`. -/
theorem resolveLoop_none (output_dir : Str) (fs : List Str) (d : Str) (parts : List Str) :
    ∀ k, (∀ j, 1 ≤ j → j ≤ k → exists_out output_dir fs (pjoinAll (parts.take j)) = none) →
      resolveLoop output_dir fs d parts k = none := by
  intro k
  induction k with
  | zero => intro _; rfl
  | succ n ihn =>
    intro hmiss
    rw [resolveLoop, hmiss (n + 1) (Nat.succ_le_succ (Nat.zero_le n)) (Nat.le_refl _)]
    exact ihn (fun j hj1 hj2 => hmiss j hj1 (Nat.le_succ_of_le hj2))

/-- Claim C2: for a dotted identifier `d`, `resolve_ext` returns, for the
    largest `i` such that the package-index file or the plain leaf file for
    the joined prefix of the first `i` components exists on disk (longest
    prefix first), that candidate's web-relative path with `#d` appended as a
    fragment; when no prefix matches, it returns `none`. -/
theorem claim_C2_resolve_longest (output_dir : Str) (fs : List Str) (d : Str) :
    (∀ i, 1 ≤ i → i ≤ (splitOnChar '.' d).length →
      (∀ j, i < j → j ≤ (splitOnChar '.' d).length →
        pkg_candidate output_dir (pjoinAll ((splitOnChar '.' d).take j)) ∉ fs ∧
        mod_candidate output_dir (pjoinAll ((splitOnChar '.' d).take j)) ∉ fs) →
      (pkg_candidate output_dir (pjoinAll ((splitOnChar '.' d).take i)) ∈ fs ∨
       mod_candidate output_dir (pjoinAll ((splitOnChar '.' d).take i)) ∈ fs) →
      resolve_ext output_dir fs d =
        some (str "/" ++ lstripSlash
          ((if pkg_candidate output_dir (pjoinAll ((splitOnChar '.' d).take i)) ∈ fs
            then pkg_candidate output_dir (pjoinAll ((splitOnChar '.' d).take i))
            else mod_candidate output_dir (pjoinAll ((splitOnChar '.' d).take i))).drop
              output_dir.length) ++ str "#" ++ d)) ∧
    ((∀ j, 1 ≤ j → j ≤ (splitOnChar '.' d).length →
        pkg_candidate output_dir (pjoinAll ((splitOnChar '.' d).take j)) ∉ fs ∧
        mod_candidate output_dir (pjoinAll ((splitOnChar '.' d).take j)) ∉ fs) →
      resolve_ext output_dir fs d = none) := by
  constructor
  · intro i h1 hlen hmiss hhit
    obtain ⟨i', rfl⟩ : ∃ i', i = i' + 1 := ⟨i - 1, by omega⟩
    rw [resolve_ext,
      resolveLoop_skip output_dir fs d (splitOnChar '.' d) (i' + 1)
        (splitOnChar '.' d).length hlen
        (fun j hj1 hj2 =>
          exists_out_none output_dir fs (pjoinAll ((splitOnChar '.' d).take j))
            (hmiss j hj1 hj2).1 (hmiss j hj1 hj2).2),
      resolveLoop, exists_out_hit output_dir fs (pjoinAll ((splitOnChar '.' d).take (i' + 1)))
        hhit]
  · intro hmiss
    rw [resolve_ext]
    exact resolveLoop_none output_dir fs d (splitOnChar '.' d) (splitOnChar '.' d).length
      (fun j hj1 hj2 =>
        exists_out_none output_dir fs (pjoinAll ((splitOnChar '.' d).take j))
          (hmiss j hj1 hj2).1 (hmiss j hj1 hj2).2)

/-- Concrete instance of claim C2, the spec's own example: with generated
    pages for `pkg` (package index) and `pkg.sub.leaf`, resolving
    `pkg.sub.other` yields the `pkg` index page with fragment
    `#pkg.sub.other`. -/
theorem claim_C2_witness :
    resolve_ext (str "docs") [str "docs/pkg/index.html", str "docs/pkg/sub/leaf.html"]
      (str "pkg.sub.other") = some (str "/pkg/index.html#pkg.sub.other") :=
  ((claim_C2_resolve_longest (str "docs")
      [str "docs/pkg/index.html", str "docs/pkg/sub/leaf.html"] (str "pkg.sub.other")).1
    1 (by decide) (by decide)
    (by
      intro j h1 h2
      have h3 : j ≤ 3 := by simpa using h2
      interval_cases j
      · exact ⟨by decide, by decide⟩
      · exact ⟨by decide, by decide⟩)
    (by decide)).trans (by decide)

/-- Concrete instances of the amended claim C8. -/
theorem claim_C8_witness :
    do_GET ⟨str "docs", [], [], fun _ => none, fun _ => none⟩ (str "/x.ext") =
      some ⟨404, [content_type],
        some (str "External identifier <code>x</code> not found.")⟩ ∧
    do_GET ⟨str "docs", [], [], fun _ => none, fun _ => none⟩ (str "/mod/") =
      some ⟨404, [content_type],
        some (str "Module <code>mod</code> not found.")⟩ := by
  constructor
  · exact ((claim_C8_amended ⟨str "docs", [], [], fun _ => none, fun _ => none⟩
      (str "/x.ext")).1 (by decide) (by decide) (by decide) (by decide) (by decide)).trans
      (by decide)
  · exact ((claim_C8_amended ⟨str "docs", [], [], fun _ => none, fun _ => none⟩
      (str "/mod/")).2 (by decide) (by decide) (by decide) (Or.inl (by decide)) (by decide)
      (by decide)).trans (by decide)

end Odoc
